import Mathlib

/-!
Verification of the update-orchestration core of the cockroach-operator
repository (`pkg/update/update.go`), as a shallow embedding.

External collaborators (the Kubernetes client's Get/Update, the readiness
wait, the health probe, the per-pod verification predicate) are modelled as
oracles indexed by a per-oracle call counter, so that each call of an
effectful collaborator may observe a different world state.  The strategy
interpreter records an event trace so that claims about which calls occur
(and in which order) are statable.

Machine integers: the Go loop counter `partition` has type `int32`
(`*sts.Spec.Replicas - 1`); all values it takes during a rollout lie well
inside the `int32` range (between `-1` and `2^31 - 2`), so it is modelled
as `Int`, on which decrement does not wrap.  Durations (`time.Duration`)
are signed 64-bit nanosecond counts, modelled as `Nat` (all values arising
here are non-negative and far below `2^63`).
-/

namespace CockroachUpdate

/-- A store-level (Kubernetes API) failure.  In the real client, NotFound
and Conflict failures are themselves `*StatusError` values carrying a
reason; `other` models a failure that is not a `StatusError` (e.g. a
network error). -/
inductive StoreErr where
  | notFound (msg : String)
  | conflict (msg : String)
  | status (msg : String)
  | other (msg : String)
deriving DecidableEq

/-- The message carried by a store failure. -/
def StoreErr.message : StoreErr → String
  | .notFound m => m
  | .conflict m => m
  | .status m => m
  | .other m => m

/-- Models `k8sErrors.IsNotFound`. -/
def StoreErr.isNotFound : StoreErr → Bool
  | .notFound _ => true
  | _ => false

/-- Models `k8sErrors.IsConflict`. -/
def StoreErr.isConflict : StoreErr → Bool
  | .conflict _ => true
  | _ => false

/-- Models the type assertion `err.(*k8sErrors.StatusError)`: NotFound,
Conflict and generic Status failures are all `StatusError`s in the
Kubernetes client; only `other` is not. -/
def StoreErr.isStatusError : StoreErr → Bool
  | .other _ => false
  | _ => true

/-- A Go `error` value as it flows through this package: a store failure,
a collaborator failure (readiness wait / health probe / verification
predicate / transform), or an error wrapped with context by
`errors.Wrapf`. -/
inductive Err where
  | store (e : StoreErr)
  | collab (msg : String)
  | wrapped (ctx : String) (e : Err)
deriving DecidableEq

/-- Whether the outermost layer of the error is an `errors.Wrapf` wrapper. -/
def Err.isWrapped : Err → Bool
  | .wrapped _ _ => true
  | _ => false

/-- The store failure at the root of an error, if any (peels wrappers). -/
def Err.rootStore : Err → Option StoreErr
  | .store e => some e
  | .collab _ => none
  | .wrapped _ e => e.rootStore

/-- One `logr.Logger.Error` call: the error argument, the message, and the
structured key/value fields. -/
structure LogEntry where
  isErrorSeverity : Bool
  err : StoreErr
  msg : String
  fields : List (String × String)
deriving DecidableEq

/-- Models `handleStsError` (update.go lines 257-267): classifies a store
failure, logs it with the resource name and namespace, and returns the
resulting error.  Note that only the NotFound branch wraps the error; the
StatusError branch returns `statusError` itself and the fallback branch
returns `err` itself.  The fallback branch's log field key is spelled
`"namspace"` in the source. -/
def handleStsError (e : StoreErr) (stsName ns : String) : List LogEntry × Err :=
  if e.isNotFound then
    ([⟨true, e, "sts is not found", [("stsName", stsName), ("namespace", ns)]⟩],
     .wrapped (s!"sts is not found: {stsName} ns: {ns}") (.store e))
  else if e.isStatusError then
    ([⟨true, e, "Error getting statefulset " ++ e.message,
       [("stsName", stsName), ("namespace", ns)]⟩],
     .store e)
  else
    ([⟨true, e, "error getting statefulset", [("stsName", stsName), ("namspace", ns)]⟩],
     .store e)

/-- The error component of `handleStsError`. -/
def handleStsErrorE (e : StoreErr) (stsName ns : String) : Err :=
  (handleStsError e stsName ns).2

/-- Observable actions of one strategy execution, in order.  `cutoffSet p`
records a *successful* persist of partition cutoff `p` by an Update call;
`updateAttempt p` records any Update call (successful or not) carrying
cutoff `p`. -/
inductive Event where
  | idemCheck (p : Int) (ok : Bool)
  | readyWait (ok : Bool)
  | updateAttempt (p : Int)
  | cutoffSet (p : Int)
  | getCall (ok : Bool)
  | verifyWait (p : Int) (ok : Bool)
  | probeCall (p : Int) (ok : Bool)
deriving DecidableEq

/-- Mutable run state threaded through the strategy: one call counter per
oracle, plus the partition cutoff last successfully persisted to the store
(`none` before the first successful Update of this execution). -/
structure RunState where
  nVerify : Nat
  nReady : Nat
  nUpdate : Nat
  nGet : Nat
  nPoll : Nat
  nProbe : Nat
  persisted : Option Int
deriving DecidableEq

def initialState : RunState := ⟨0, 0, 0, 0, 0, 0, none⟩

/-- The environment of one strategy execution: the replica count read once
from the fetched StatefulSet, the resource identity, and one oracle per
effectful collaborator, each indexed by that collaborator's call counter.
`none` means the call succeeds; `some` carries the failure.
`poll` is the outcome of one whole `waitUntilPerPodVerificationFuncVerifies`
call (that function is modelled in detail separately as `retryBackoff`
below). -/
structure StratEnv where
  replicas : Int
  stsName : String
  stsNamespace : String
  verify : Int → Nat → Option String
  podsReady : Nat → Option String
  update : Nat → Option StoreErr
  get : Nat → Option StoreErr
  poll : Int → Nat → Option String
  probe : Int → Nat → Option String

/-- Steps of the client-go default conflict retry policy
(`retry.DefaultRetry.Steps`). -/
def defaultRetrySteps : Nat := 5

/-- Total Update attempts one iteration may make for its cutoff: the first
Update (update.go line 191) plus the `retry.RetryOnConflict` attempts. -/
def retryBudget : Nat := defaultRetrySteps + 1

/-- One attempt of the `retry.RetryOnConflict` body (update.go lines
194-205): Get the latest resource, reapply the partition assignment, and
Update.  A Get failure is returned as the attempt's error. -/
def retryFn (env : StratEnv) (p : Int) (s : RunState) :
    Option StoreErr × RunState × List Event :=
  match env.get s.nGet with
  | some e => (some e, { s with nGet := s.nGet + 1 }, [.getCall false])
  | none =>
    let s1 : RunState := { s with nGet := s.nGet + 1 }
    match env.update s1.nUpdate with
    | none =>
      (none, { s1 with nUpdate := s1.nUpdate + 1, persisted := some p },
       [.getCall true, .updateAttempt p, .cutoffSet p])
    | some e =>
      (some e, { s1 with nUpdate := s1.nUpdate + 1 }, [.getCall true, .updateAttempt p])

/-- Models `retry.RetryOnConflict(retry.DefaultRetry, fn)`: runs `fn` up
to `steps` times; a nil result stops with success, a conflict is retried,
any other error stops immediately with that error; on exhausting the steps
the last conflict is returned (client-go's `OnError` replaces
`ErrWaitTimeout` by the last retriable error). -/
def retryOnConflict (env : StratEnv) (p : Int) :
    Nat → StoreErr → RunState → Option StoreErr × RunState × List Event
  | 0, lastErr, s => (some lastErr, s, [])
  | n + 1, _, s =>
    match retryFn env p s with
    | (none, s', ev) => (none, s', ev)
    | (some e, s', ev) =>
      if e.isConflict then
        match retryOnConflict env p n e s' with
        | (r, s'', ev') => (r, s'', ev ++ ev')
      else (some e, s', ev)

/-- Models the mutation phase of one iteration (update.go lines 187-213):
the first Update carrying partition cutoff `p`; on a conflict, the
`retry.RetryOnConflict` loop; on any other failure, immediate return. -/
def persistPartition (env : StratEnv) (p : Int) (s : RunState) :
    Option StoreErr × RunState × List Event :=
  match env.update s.nUpdate with
  | none =>
    (none, { s with nUpdate := s.nUpdate + 1, persisted := some p },
     [.updateAttempt p, .cutoffSet p])
  | some e =>
    let s1 : RunState := { s with nUpdate := s.nUpdate + 1 }
    if e.isConflict then
      match retryOnConflict env p defaultRetrySteps e s1 with
      | (r, s', ev) => (r, s', [.updateAttempt p] ++ ev)
    else (some e, s1, [.updateAttempt p])

/-- Outcome of one loop iteration: continue to the next ordinal with the
current value of the local `skipSleep` variable, or return from the
strategy with `(ret, some e)`. -/
inductive IterOut where
  | cont (skip : Bool)
  | abort (ret : Bool) (e : Err)
deriving DecidableEq

/-- One iteration of the partitioned rollout loop for ordinal `p`
(update.go lines 170-233), translated branch by branch:
idempotence check (line 176), `skipSleep = false` then readiness wait
(lines 182-186), mutation via `persistPartition` (lines 187-213),
verification poller (line 219), mandatory re-fetch (line 226), health
probe (line 230).  On the probe-failure path the source returns the local
`skipSleep` variable, whose value at that point is the `false` assigned at
line 182. -/
def iter (env : StratEnv) (p : Int) (s : RunState) :
    IterOut × RunState × List Event :=
  match env.verify p s.nVerify with
  | none =>
    (.cont true, { s with nVerify := s.nVerify + 1 }, [.idemCheck p true])
  | some _ =>
    let s1 : RunState := { s with nVerify := s.nVerify + 1 }
    match env.podsReady s1.nReady with
    | some m =>
      (.abort false (.wrapped "error while waiting for all pods to be ready" (.collab m)),
       { s1 with nReady := s1.nReady + 1 }, [.idemCheck p false, .readyWait false])
    | none =>
      let s2 : RunState := { s1 with nReady := s1.nReady + 1 }
      match persistPartition env p s2 with
      | (some e, s3, ev) =>
        (.abort false (handleStsErrorE e env.stsName env.stsNamespace), s3,
         [.idemCheck p false, .readyWait true] ++ ev)
      | (none, s3, ev) =>
        match env.poll p s3.nPoll with
        | some m =>
          (.abort false (.wrapped (s!"error while running verificationFunc on pod {p}")
             (.collab m)),
           { s3 with nPoll := s3.nPoll + 1 },
           [.idemCheck p false, .readyWait true] ++ ev ++ [.verifyWait p false])
        | none =>
          let s4 : RunState := { s3 with nPoll := s3.nPoll + 1 }
          match env.get s4.nGet with
          | some e =>
            (.abort false (handleStsErrorE e env.stsName env.stsNamespace),
             { s4 with nGet := s4.nGet + 1 },
             [.idemCheck p false, .readyWait true] ++ ev ++ [.verifyWait p true, .getCall false])
          | none =>
            let s5 : RunState := { s4 with nGet := s4.nGet + 1 }
            match env.probe p s5.nProbe with
            | some m =>
              (.abort false (.collab m),
               { s5 with nProbe := s5.nProbe + 1 },
               [.idemCheck p false, .readyWait true] ++ ev
                 ++ [.verifyWait p true, .getCall true, .probeCall p false])
            | none =>
              (.cont false, { s5 with nProbe := s5.nProbe + 1 },
               [.idemCheck p false, .readyWait true] ++ ev
                 ++ [.verifyWait p true, .getCall true, .probeCall p true])

/-- The descending ordinal sequence `[n-1, n-2, …, 0]` the loop visits. -/
def partitionListAux : Nat → List Int
  | 0 => []
  | n + 1 => (n : Int) :: partitionListAux n

/-- The ordinals visited by `for partition := replicas - 1; partition >= 0;
partition--`, as a list: empty when `replicas ≤ 0`. -/
def partitionSeq (replicas : Int) : List Int := partitionListAux replicas.toNat

/-- The rollout loop over a list of ordinals, threading the `skipSleep`
local variable and the run state, accumulating the event trace. -/
def runLoop (env : StratEnv) :
    List Int → Bool → RunState → (Bool × Option Err) × RunState × List Event
  | [], skip, s => ((skip, none), s, [])
  | p :: rest, skip, s =>
    match iter env p s with
    | (.cont skip', s', ev) =>
      match runLoop env rest skip' s' with
      | (r, s'', ev') => (r, s'', ev ++ ev')
    | (.abort ret e, s', ev) => ((ret, some e), s', ev)

/-- One execution of the closure returned by
`PartitionedRollingUpdateStrategy` (update.go lines 164-235):
`skipSleep := false`, then the descending loop, then
`return skipSleep, nil`. -/
def runStrategy (env : StratEnv) : (Bool × Option Err) × RunState × List Event :=
  runLoop env (partitionSeq env.replicas) false initialState

/-- The same loop written with the source's signed counter: start at `p`,
stop as soon as `p < 0`, decrement each iteration.  `fuel` bounds the
recursion depth; `runLoopInt_eq_runLoop` shows `replicas.toNat` fuel always
suffices and the counter form agrees with the list form. -/
def runLoopInt (env : StratEnv) :
    Nat → Int → Bool → RunState → Option ((Bool × Option Err) × RunState × List Event)
  | fuel, p, skip, s =>
    if p < 0 then some ((skip, none), s, [])
    else
      match fuel with
      | 0 => none
      | fuel' + 1 =>
        match iter env p s with
        | (.cont skip', s', ev) =>
          match runLoopInt env fuel' (p - 1) skip' s' with
          | some (r, s'', ev') => some (r, s'', ev ++ ev')
          | none => none
        | (.abort ret e, s', ev) => some ((ret, some e), s', ev)

/-- The partition cutoff value a successful Update persisted, if this
event is such a persist. -/
def cutoffOf : Event → Option Int
  | .cutoffSet p => some p
  | _ => none

/-- The successful cutoff writes of a trace, in order. -/
def cutoffs (tr : List Event) : List Int := tr.filterMap cutoffOf

/- ### The verification poller (update.go lines 238-253) -/

/-- `backoff.NewExponentialBackOff()`'s `InitialInterval`: 500ms in
nanoseconds. -/
def initialIntervalDefault : Nat := 500000000

/-- Models `ExponentialBackOff.incrementCurrentInterval` with the default
`Multiplier` of 1.5: once the current interval reaches
`MaxInterval / 1.5` it is pinned at `MaxInterval`, otherwise it is
multiplied by 1.5 (the conversion back to an integral `time.Duration`
truncates, modelled by `Nat` division). -/
def incrementCurrentInterval (maxInterval cur : Nat) : Nat :=
  if 2 * maxInterval ≤ 3 * cur then maxInterval else 3 * cur / 2

/-- Models `backoff.Retry` driving an `ExponentialBackOff`:
call the operation; on success stop; otherwise, if the elapsed time has
exceeded `MaxElapsedTime` (a zero `MaxElapsedTime` means no limit), stop
returning the operation's last error; otherwise sleep and retry.
`op k` is the outcome of the `k`-th call of the per-pod verification
predicate; `jitter k cur` is the randomized sleep drawn around the current
interval `cur` (the source draws uniformly from
`[cur - cur/2, cur + cur/2]`); operations are modelled as taking no time,
so the elapsed time is the sum of the sleeps.  The returned list records
the current (pre-randomization) interval of each sleep performed.
`fuel` bounds the recursion; the termination theorem shows
`maxElapsedTime + 2` fuel suffices whenever every sleep lasts at least one
nanosecond. -/
def retryBackoff (op : Nat → Option String) (jitter : Nat → Nat → Nat)
    (maxInterval maxElapsedTime : Nat) :
    Nat → Nat → Nat → Nat → List Nat → Option (Option String × List Nat)
  | 0, _, _, _, _ => none
  | fuel + 1, k, elapsed, cur, sleeps =>
    match op k with
    | none => some (none, sleeps)
    | some e =>
      if maxElapsedTime ≠ 0 ∧ maxElapsedTime < elapsed then some (some e, sleeps)
      else
        retryBackoff op jitter maxInterval maxElapsedTime fuel (k + 1)
          (elapsed + jitter k cur) (incrementCurrentInterval maxInterval cur)
          (sleeps ++ [cur])

/-- Models `waitUntilPerPodVerificationFuncVerifies`: a fresh exponential
backoff with `MaxElapsedTime = podUpdateTimeout` and
`MaxInterval = podMaxPollingInterval`, retrying the per-pod verification
predicate. -/
def waitUntilPerPodVerificationFuncVerifies (op : Nat → Option String)
    (jitter : Nat → Nat → Nat) (podUpdateTimeout podMaxPollingInterval fuel : Nat) :
    Option (Option String × List Nat) :=
  retryBackoff op jitter podMaxPollingInterval podUpdateTimeout fuel 0 0
    initialIntervalDefault []

/- ### The controller entry point (update.go lines 99-148) -/

/-- Environment of one `UpdateClusterRegionStatefulSet` call: the outcome
of the initial Get, of the injected `updateFunc` transform, and of the
injected `updateStrategyFunc` (the `(skipSleep, error)` pair it returns). -/
structure CtrlEnv where
  getResult : Option StoreErr
  transformResult : Option String
  strategyResult : Bool × Option Err

/-- Models `UpdateClusterRegionStatefulSet`: Get (classified on failure),
transform (wrapped on failure), then the strategy; on a strategy error the
source executes `return false, errors.Wrapf(err, "error applying
updateStrategyFunc to %s %s", name, namespace)` — it returns literal
`false`, not the strategy's skipSleep value. -/
def UpdateClusterRegionStatefulSet (env : CtrlEnv) (name ns : String) :
    Bool × Option Err :=
  match env.getResult with
  | some e => (false, some (handleStsErrorE e name ns))
  | none =>
    match env.transformResult with
    | some m =>
      (false, some (.wrapped (s!"error applying updateFunc to {name} {ns}") (.collab m)))
    | none =>
      match env.strategyResult with
      | (_, some e) =>
        (false, some (.wrapped (s!"error applying updateStrategyFunc to {name} {ns}") e))
      | (skipSleep, none) => (skipSleep, none)

/- ### Concrete environments used by witnesses and counterexamples -/

/-- A strategy environment where every collaborator succeeds and every
idempotence check succeeds (every pod already verified). -/
def envAllVerified : StratEnv where
  replicas := 1
  stsName := "crdb"
  stsNamespace := "ns"
  verify := fun _ _ => none
  podsReady := fun _ => none
  update := fun _ => none
  get := fun _ => none
  poll := fun _ _ => none
  probe := fun _ _ => none

/-- A strategy environment where no pod is ever verified up front (the
idempotence check always fails) and all other collaborators succeed. -/
def envFreshRollout : StratEnv where
  replicas := 3
  stsName := "crdb"
  stsNamespace := "ns"
  verify := fun _ _ => some "pod not yet updated"
  podsReady := fun _ => none
  update := fun _ => none
  get := fun _ => none
  poll := fun _ _ => none
  probe := fun _ _ => none

/-- A controller environment whose strategy returns `skipSleep = true`
together with an error (as the strategy does when the last processed
ordinal was skipped and a later call of the same execution failed). -/
def envCtrlHintErr : CtrlEnv where
  getResult := none
  transformResult := none
  strategyResult := (true, some (.collab "probe failed"))

/-- A controller environment whose strategy succeeds with
`skipSleep = true`. -/
def envCtrlOk : CtrlEnv where
  getResult := none
  transformResult := none
  strategyResult := (true, none)

/-- Witness environment for the conflict-retry claim: the first two Update
calls hit an optimistic-concurrency conflict, the third succeeds. -/
def envTwoConflicts : StratEnv :=
  { envFreshRollout with
      update := fun n => if n < 2 then some (.conflict "object has been modified") else none }

/-- Witness environment: every Update call conflicts. -/
def envAlwaysConflict : StratEnv :=
  { envFreshRollout with
      update := fun _ => some (.conflict "object has been modified") }

/-- Witness environment: the first Update fails with a non-conflict store
failure. -/
def envUpdateDenied : StratEnv :=
  { envFreshRollout with update := fun _ => some (.status "forbidden") }

/-- Witness environment: the first Update conflicts and the retried Update
fails with a non-conflict store failure. -/
def envRetryDenied : StratEnv :=
  { envFreshRollout with
      update := fun n =>
        if n = 0 then some (.conflict "object has been modified")
        else some (.status "forbidden") }

/-- Witness environment: the first Update conflicts and the re-fetch Get
inside the retry loop fails with a non-conflict failure. -/
def envRetryGetFails : StratEnv :=
  { envFreshRollout with
      update := fun _ => some (.conflict "object has been modified"),
      get := fun _ => some (.other "connection refused") }

/- ### Soundness of the list form of the loop -/

/-- The list form `runLoop` agrees with the signed-counter form
`runLoopInt` of the source's `for` loop, with `n` fuel: the counter form
terminates and produces the same result. -/
theorem runLoopInt_eq_runLoop (env : StratEnv) :
    ∀ (n : Nat) (skip : Bool) (s : RunState),
      runLoopInt env n ((n : Int) - 1) skip s
        = some (runLoop env (partitionListAux n) skip s) := by
  intro n
  induction n with
  | zero =>
    intro skip s
    simp [runLoopInt, runLoop, partitionListAux]
  | succ m ih =>
    intro skip s
    have hcast : ((m + 1 : Nat) : Int) - 1 = (m : Int) := by push_cast; ring
    rw [hcast]
    have hlt : ¬ ((m : Int) < 0) := by omega
    show runLoopInt env (m + 1) (m : Int) skip s = _
    rw [show partitionListAux (m + 1) = (m : Int) :: partitionListAux m from rfl]
    cases hiter : iter env (m : Int) s with
    | mk out s'ev =>
      cases s'ev with
      | mk s' ev =>
        cases out with
        | cont skip' =>
          simp only [runLoopInt, runLoop, hiter, hlt, if_false, ih]
        | abort ret e =>
          simp only [runLoopInt, runLoop, hiter, hlt, if_false]

/- ### C9: zero replicas -/

/-- C9: when the replica count is 0 the strategy's loop performs zero
iterations — the trace is empty, so no verification, readiness wait,
mutation or health probe occurs — and the strategy returns
`(skipSleep = false, nil)` with the run state untouched; the signed
counter form stops at once (the counter `replicas - 1 = -1` is negative,
with no wrap-around), needing no fuel at all. -/
theorem C9_zero_replicas (env : StratEnv) (h : env.replicas = 0) :
    runStrategy env = ((false, none), initialState, []) ∧
    runLoopInt env 0 (env.replicas - 1) false initialState
      = some ((false, none), initialState, []) := by
  constructor
  · simp [runStrategy, h, partitionSeq, partitionListAux, runLoop, Int.toNat_zero]
  · simp [runLoopInt, h]

/-- Witness for C9 at a concrete environment with 0 replicas. -/
theorem C9_zero_replicas_witness :
    runStrategy { envAllVerified with replicas := 0 } = ((false, none), initialState, []) ∧
    runLoopInt { envAllVerified with replicas := 0 } 0
        (({ envAllVerified with replicas := 0 } : StratEnv).replicas - 1) false initialState
      = some ((false, none), initialState, []) :=
  C9_zero_replicas { envAllVerified with replicas := 0 } rfl

/- ### C2: the idempotence check short-circuits the iteration -/

/-- C2: if the per-pod verification predicate already succeeds for ordinal
`p` before any mutation, the iteration performs nothing but that check —
its whole event delta is `[idemCheck p true]`, so there is no mutation, no
readiness wait, no health probe and no store call — `skipSleep` becomes
`true`, and the loop continues directly with the remaining (lower)
ordinals. -/
theorem C2_idempotence_skip (env : StratEnv) (p : Int) (skip : Bool)
    (s : RunState) (rest : List Int)
    (h : env.verify p s.nVerify = none) :
    iter env p s
      = (.cont true, { s with nVerify := s.nVerify + 1 }, [.idemCheck p true]) ∧
    runLoop env (p :: rest) skip s
      = ((runLoop env rest true { s with nVerify := s.nVerify + 1 }).1,
         (runLoop env rest true { s with nVerify := s.nVerify + 1 }).2.1,
         .idemCheck p true :: (runLoop env rest true { s with nVerify := s.nVerify + 1 }).2.2) := by
  refine ⟨by simp [iter, h], ?_⟩
  cases hr : runLoop env rest true { s with nVerify := s.nVerify + 1 } with
  | mk r rest' =>
    cases rest' with
    | mk s'' ev' =>
      simp [runLoop, iter, h, hr]

/-- Witness for C2: ordinal 0 of a 1-replica cluster already verified. -/
theorem C2_idempotence_skip_witness :
    iter envAllVerified 0 initialState
      = (.cont true, { initialState with nVerify := 1 }, [.idemCheck 0 true]) ∧
    runLoop envAllVerified [0] false initialState
      = ((runLoop envAllVerified [] true { initialState with nVerify := 1 }).1,
         (runLoop envAllVerified [] true { initialState with nVerify := 1 }).2.1,
         .idemCheck 0 true
           :: (runLoop envAllVerified [] true { initialState with nVerify := 1 }).2.2) :=
  C2_idempotence_skip envAllVerified 0 false initialState [] rfl

/- ### C7: readiness-wait failure aborts before any mutation -/

/-- C7: if the readiness wait fails for an ordinal, the strategy returns a
fatal (wrapped) error whose event delta is just the failed idempotence
check and the failed wait — in particular no `updateAttempt` occurs, and
the persisted partition cutoff is exactly what it was before, so this
failure path leaves no partial state change. -/
theorem C7_ready_wait_failure_atomic (env : StratEnv) (p : Int) (skip : Bool)
    (s : RunState) (rest : List Int) (mv m : String)
    (hv : env.verify p s.nVerify = some mv)
    (hr : env.podsReady s.nReady = some m) :
    runLoop env (p :: rest) skip s
      = ((false, some (.wrapped "error while waiting for all pods to be ready" (.collab m))),
         { s with nVerify := s.nVerify + 1, nReady := s.nReady + 1 },
         [.idemCheck p false, .readyWait false]) ∧
    ({ s with nVerify := s.nVerify + 1, nReady := s.nReady + 1 } : RunState).persisted
      = s.persisted := by
  obtain ⟨a, b, c, d, e, f, g⟩ := s
  exact ⟨by simp [runLoop, iter, hv, hr], rfl⟩

/-- Witness for C7: readiness wait fails at ordinal 2 of a fresh
3-replica rollout. -/
theorem C7_ready_wait_failure_atomic_witness :
    runLoop { envFreshRollout with podsReady := fun _ => some "pod 1 not ready" }
        [2, 1, 0] false initialState
      = ((false, some (.wrapped "error while waiting for all pods to be ready"
            (.collab "pod 1 not ready"))),
         { initialState with nVerify := 1, nReady := 1 },
         [.idemCheck 2 false, .readyWait false]) ∧
    ({ initialState with nVerify := 1, nReady := 1 } : RunState).persisted
      = initialState.persisted :=
  C7_ready_wait_failure_atomic
    { envFreshRollout with podsReady := fun _ => some "pod 1 not ready" }
    2 false initialState [1, 0] "pod not yet updated" "pod 1 not ready" rfl rfl

/- ### C6: health-probe failure aborts before any lower ordinal -/

/-- C6: if the health probe fails after ordinal `p`'s mutation has been
persisted (cutoff set to `p`) and verified, the strategy returns at once:
the result does not depend on the remaining ordinals `rest`, and the trace
contains events for ordinal `p` only — no idempotence check, readiness
wait, mutation, verification or probe happens for any lower ordinal.  The
returned hint is the `skipSleep` value computed in this iteration (the
`false` assigned before the readiness wait), returned alongside the raw
probe error. -/
theorem C6_probe_failure_aborts (env : StratEnv) (p : Int) (skip : Bool)
    (s : RunState) (rest : List Int) (mv m : String)
    (hv : env.verify p s.nVerify = some mv)
    (hr : env.podsReady s.nReady = none)
    (hu : env.update s.nUpdate = none)
    (hp : env.poll p s.nPoll = none)
    (hg : env.get s.nGet = none)
    (hpr : env.probe p s.nProbe = some m) :
    runLoop env (p :: rest) skip s
      = ((false, some (.collab m)),
         { s with nVerify := s.nVerify + 1, nReady := s.nReady + 1,
                  nUpdate := s.nUpdate + 1, nPoll := s.nPoll + 1,
                  nGet := s.nGet + 1, nProbe := s.nProbe + 1, persisted := some p },
         [.idemCheck p false, .readyWait true, .updateAttempt p, .cutoffSet p,
          .verifyWait p true, .getCall true, .probeCall p false]) := by
  obtain ⟨a, b, c, d, e, f, g⟩ := s
  simp [runLoop, iter, persistPartition, hv, hr, hu, hp, hg, hpr]

/-- Witness for C6: probe fails right after ordinal 2 of a fresh
3-replica rollout was mutated and verified; ordinals 1 and 0 are never
processed. -/
theorem C6_probe_failure_aborts_witness :
    runLoop { envFreshRollout with probe := fun _ _ => some "cluster unhealthy" }
        [2, 1, 0] false initialState
      = ((false, some (.collab "cluster unhealthy")),
         { initialState with nVerify := 1, nReady := 1, nUpdate := 1, nPoll := 1,
                             nGet := 1, nProbe := 1, persisted := some 2 },
         [.idemCheck 2 false, .readyWait true, .updateAttempt 2, .cutoffSet 2,
          .verifyWait 2 true, .getCall true, .probeCall 2 false]) :=
  C6_probe_failure_aborts
    { envFreshRollout with probe := fun _ _ => some "cluster unhealthy" }
    2 false initialState [1, 0] "pod not yet updated" "cluster unhealthy"
    rfl rfl rfl rfl rfl rfl

/- ### C5: the controller discards the strategy's hint on error -/

/-- C5 counterexample: when the strategy returns `(true, err)`, the
controller returns `false` for the hint — the strategy's `skipSleepHint`
is *not* preserved alongside the wrapped error, contrary to the claim
(update.go line 144 returns the literal `false`). -/
theorem C5_counterexample :
    envCtrlHintErr.strategyResult.1 = true ∧
    (UpdateClusterRegionStatefulSet envCtrlHintErr "crdb" "ns").1 = false ∧
    (UpdateClusterRegionStatefulSet envCtrlHintErr "crdb" "ns").2
      = some (.wrapped "error applying updateStrategyFunc to crdb ns"
          (.collab "probe failed")) :=
  ⟨rfl, rfl, rfl⟩

/-- C5 amended: when the strategy returns an error, the controller returns
the error wrapped with the resource identity but with the hint forced to
`false` (the strategy's computed hint is discarded on every error path);
the strategy's `(skipSleepHint, nil)` is returned verbatim only on
success. -/
theorem C5_amended_hint_discarded_on_error (env : CtrlEnv) (name ns : String)
    (hg : env.getResult = none) (ht : env.transformResult = none) :
    (∀ skip e, env.strategyResult = (skip, some e) →
        UpdateClusterRegionStatefulSet env name ns
          = (false, some (.wrapped (s!"error applying updateStrategyFunc to {name} {ns}") e))) ∧
    (∀ skip, env.strategyResult = (skip, none) →
        UpdateClusterRegionStatefulSet env name ns = (skip, none)) := by
  constructor
  · intro skip e h
    simp [UpdateClusterRegionStatefulSet, hg, ht, h]
  · intro skip h
    simp [UpdateClusterRegionStatefulSet, hg, ht, h]

/-- Witness for the amended C5 on both paths. -/
theorem C5_amended_hint_discarded_on_error_witness :
    UpdateClusterRegionStatefulSet envCtrlHintErr "crdb" "ns"
      = (false, some (.wrapped "error applying updateStrategyFunc to crdb ns"
          (.collab "probe failed"))) ∧
    UpdateClusterRegionStatefulSet envCtrlOk "crdb" "ns" = (true, none) :=
  ⟨(C5_amended_hint_discarded_on_error envCtrlHintErr "crdb" "ns" rfl rfl).1
      true (.collab "probe failed") rfl,
   (C5_amended_hint_discarded_on_error envCtrlOk "crdb" "ns" rfl rfl).2 true rfl⟩

/- ### C8: error classification -/

/-- C8 counterexample: for a structured Status failure the classifier
returns the error itself, unwrapped — not "a wrapped, classified error",
contrary to the claim (update.go line 263 returns `statusError`
directly). -/
theorem C8_counterexample :
    handleStsErrorE (.status "boom") "crdb" "ns" = .store (.status "boom") ∧
    (handleStsErrorE (.status "boom") "crdb" "ns").isWrapped = false :=
  ⟨rfl, rfl⟩

/-- C8 amended: every store failure passed to the classifier is logged
exactly once, at error severity, with the resource name and namespace
fields and the failing error itself, and the classified error is returned
to the caller — wrapped with name/namespace context on the NotFound path
and returned as-is on the StatusError and fallback paths; the original
failure is always the root of the returned error, so no error is
swallowed. -/
theorem C8_amended_classify_and_log (e : StoreErr) (stsName ns : String) :
    (handleStsError e stsName ns).1.length = 1 ∧
    (∀ le ∈ (handleStsError e stsName ns).1,
        le.isErrorSeverity = true ∧ le.err = e ∧
        ("stsName", stsName) ∈ le.fields ∧
        (("namespace", ns) ∈ le.fields ∨ ("namspace", ns) ∈ le.fields)) ∧
    (handleStsErrorE e stsName ns).rootStore = some e ∧
    (handleStsErrorE e stsName ns).isWrapped = e.isNotFound := by
  cases e <;>
    simp [handleStsError, handleStsErrorE, Err.rootStore, Err.isWrapped,
      StoreErr.isNotFound, StoreErr.isStatusError]

/- ### Trace facts about the mutation phase -/

theorem cutoffs_append (a b : List Event) :
    cutoffs (a ++ b) = cutoffs a ++ cutoffs b := by
  simp [cutoffs]

/-- One `RetryOnConflict` attempt records no idempotence-check event;
on success its trace persists exactly cutoff `p`, on failure it persists
nothing. -/
theorem retryFn_trace (env : StratEnv) (p : Int) (s : RunState) :
    (∀ q b, Event.idemCheck q b ∉ (retryFn env p s).2.2) ∧
    ((retryFn env p s).1 = none →
      cutoffs (retryFn env p s).2.2 = [p] ∧ (retryFn env p s).2.1.persisted = some p) ∧
    (∀ e, (retryFn env p s).1 = some e →
      cutoffs (retryFn env p s).2.2 = [] ∧ (retryFn env p s).2.1.persisted = s.persisted) := by
  obtain ⟨a, b, c, d, e0, f, g⟩ := s
  unfold retryFn
  cases hg : env.get d with
  | some e => simp [cutoffs, cutoffOf]
  | none =>
    cases hu : env.update c with
    | none => simp [hu, cutoffs, cutoffOf]
    | some e => simp [hu, cutoffs, cutoffOf]

/-- The whole `RetryOnConflict` loop records no idempotence-check event;
on success its trace persists exactly cutoff `p`, on failure it leaves the
persisted cutoff unchanged and persists nothing. -/
theorem retryOnConflict_trace (env : StratEnv) (p : Int) :
    ∀ (n : Nat) (lastE : StoreErr) (s : RunState),
      (∀ q b, Event.idemCheck q b ∉ (retryOnConflict env p n lastE s).2.2) ∧
      ((retryOnConflict env p n lastE s).1 = none →
        cutoffs (retryOnConflict env p n lastE s).2.2 = [p] ∧
        (retryOnConflict env p n lastE s).2.1.persisted = some p) ∧
      (∀ e, (retryOnConflict env p n lastE s).1 = some e →
        cutoffs (retryOnConflict env p n lastE s).2.2 = [] ∧
        (retryOnConflict env p n lastE s).2.1.persisted = s.persisted) := by
  intro n
  induction n with
  | zero =>
    intro lastE s
    simp [retryOnConflict, cutoffs]
  | succ m ih =>
    intro lastE s
    obtain ⟨hfNoIdem, hfSucc, hfFail⟩ := retryFn_trace env p s
    cases hf : retryFn env p s with
    | mk r s'ev =>
      obtain ⟨s', ev⟩ := s'ev
      rw [hf] at hfNoIdem hfSucc hfFail
      simp only at hfNoIdem hfSucc hfFail
      cases r with
      | none =>
        have hrw : retryOnConflict env p (m + 1) lastE s = (none, s', ev) := by
          simp [retryOnConflict, hf]
        rw [hrw]
        exact ⟨hfNoIdem, fun _ => hfSucc rfl, fun e he => by simp at he⟩
      | some e =>
        by_cases hc : e.isConflict
        · obtain ⟨hrNoIdem, hrSucc, hrFail⟩ := ih e s'
          cases hr : retryOnConflict env p m e s' with
          | mk r2 s''ev =>
            obtain ⟨s'', ev'⟩ := s''ev
            rw [hr] at hrNoIdem hrSucc hrFail
            simp only at hrNoIdem hrSucc hrFail
            have hrw : retryOnConflict env p (m + 1) lastE s = (r2, s'', ev ++ ev') := by
              simp [retryOnConflict, hf, hc, hr]
            rw [hrw]
            obtain ⟨hev, hpers⟩ := hfFail e rfl
            refine ⟨?_, ?_, ?_⟩
            · intro q b hmem
              rcases List.mem_append.mp hmem with h | h
              · exact hfNoIdem q b h
              · exact hrNoIdem q b h
            · intro h2
              obtain ⟨hc2, hp2⟩ := hrSucc h2
              simp [cutoffs_append, hev, hc2, hp2]
            · intro e2 he2
              obtain ⟨hc2, hp2⟩ := hrFail e2 he2
              simp [cutoffs_append, hev, hc2, hp2, hpers]
        · have hrw : retryOnConflict env p (m + 1) lastE s = (some e, s', ev) := by
            simp [retryOnConflict, hf, hc]
          rw [hrw]
          refine ⟨hfNoIdem, by simp, fun e2 he2 => ?_⟩
          obtain rfl : e = e2 := by simpa using he2
          exact hfFail e rfl

/-- The mutation phase of one iteration records no idempotence-check
event; on success it persists exactly cutoff `p`, on failure it leaves the
persisted cutoff unchanged. -/
theorem persistPartition_trace (env : StratEnv) (p : Int) (s : RunState) :
    (∀ q b, Event.idemCheck q b ∉ (persistPartition env p s).2.2) ∧
    ((persistPartition env p s).1 = none →
      cutoffs (persistPartition env p s).2.2 = [p] ∧
      (persistPartition env p s).2.1.persisted = some p) ∧
    (∀ e, (persistPartition env p s).1 = some e →
      cutoffs (persistPartition env p s).2.2 = [] ∧
      (persistPartition env p s).2.1.persisted = s.persisted) := by
  cases hu : env.update s.nUpdate with
  | none =>
    have hrw : persistPartition env p s
        = (none, { s with nUpdate := s.nUpdate + 1, persisted := some p },
           [.updateAttempt p, .cutoffSet p]) := by
      simp [persistPartition, hu]
    rw [hrw]
    simp [cutoffs, cutoffOf]
  | some e =>
    by_cases hc : e.isConflict
    · obtain ⟨hrNoIdem, hrSucc, hrFail⟩ :=
        retryOnConflict_trace env p defaultRetrySteps e { s with nUpdate := s.nUpdate + 1 }
      cases hr : retryOnConflict env p defaultRetrySteps e { s with nUpdate := s.nUpdate + 1 } with
      | mk r2 s''ev =>
        obtain ⟨s'', ev'⟩ := s''ev
        rw [hr] at hrNoIdem hrSucc hrFail
        simp only at hrNoIdem hrSucc hrFail
        have hrw : persistPartition env p s = (r2, s'', [.updateAttempt p] ++ ev') := by
          simp [persistPartition, hu, hc, hr]
        rw [hrw]
        refine ⟨?_, ?_, ?_⟩
        · intro q b hmem
          rcases List.mem_append.mp hmem with h | h
          · simp at h
          · exact hrNoIdem q b h
        · intro h2
          obtain ⟨hc2, hp2⟩ := hrSucc h2
          refine ⟨?_, hp2⟩
          rw [cutoffs_append, show cutoffs [Event.updateAttempt p] = [] from rfl]
          simpa using hc2
        · intro e2 he2
          obtain ⟨hc2, hp2⟩ := hrFail e2 he2
          refine ⟨?_, hp2⟩
          rw [cutoffs_append, show cutoffs [Event.updateAttempt p] = [] from rfl]
          simpa using hc2
    · have hrw : persistPartition env p s
          = (some e, { s with nUpdate := s.nUpdate + 1 }, [.updateAttempt p]) := by
        simp [persistPartition, hu, hc]
      rw [hrw]
      simp [cutoffs, cutoffOf]

/-- Removing events that carry no cutoff leaves the cutoff list
unchanged. -/
theorem cutoffs_skip_cons (x : Event) (l : List Event) (h : cutoffOf x = none) :
    cutoffs (x :: l) = cutoffs l := by
  simp [cutoffs, h]

/-- Exhaustive description of one loop iteration: either the idempotence
check passes and the iteration is a pure skip; or it runs to completion
persisting exactly its own cutoff `p`; or it aborts, having persisted
either nothing or exactly `p`.  In the two non-skip cases every
idempotence-check event in the delta is the failed check for `p`
itself. -/
theorem iter_cases (env : StratEnv) (p : Int) (s : RunState) :
    iter env p s = (.cont true, { s with nVerify := s.nVerify + 1 }, [.idemCheck p true]) ∨
    (∃ s' ev, iter env p s = (.cont false, s', ev) ∧ cutoffs ev = [p] ∧
      ∀ q b, Event.idemCheck q b ∈ ev → q = p ∧ b = false) ∨
    (∃ r e s' ev, iter env p s = (.abort r e, s', ev) ∧
      (cutoffs ev = [] ∨ cutoffs ev = [p]) ∧
      ∀ q b, Event.idemCheck q b ∈ ev → q = p ∧ b = false) := by
  cases hv : env.verify p s.nVerify with
  | none =>
    left
    simp [iter, hv]
  | some mv =>
    right
    cases hr : env.podsReady s.nReady with
    | some m =>
      right
      refine ⟨false, .wrapped "error while waiting for all pods to be ready" (.collab m),
        { s with nVerify := s.nVerify + 1, nReady := s.nReady + 1 },
        [.idemCheck p false, .readyWait false],
        by simp [iter, hv, hr], Or.inl rfl, ?_⟩
      intro q b hmem
      simp only [List.mem_cons, List.not_mem_nil, or_false] at hmem
      rcases hmem with h | h
      · simpa using h
      · simp at h
    | none =>
      obtain ⟨hpNoIdem, hpSucc, hpFail⟩ :=
        persistPartition_trace env p { s with nVerify := s.nVerify + 1, nReady := s.nReady + 1 }
      cases hpp : persistPartition env p
          { s with nVerify := s.nVerify + 1, nReady := s.nReady + 1 } with
      | mk pr s3ev =>
        obtain ⟨s3, ev⟩ := s3ev
        rw [hpp] at hpNoIdem hpSucc hpFail
        simp only at hpNoIdem hpSucc hpFail
        have hprefix : ∀ (tail : List Event) (q : Int) (b : Bool),
            Event.idemCheck q b ∈ Event.idemCheck p false :: Event.readyWait true :: (ev ++ tail) →
            (∀ q2 b2, Event.idemCheck q2 b2 ∉ tail) →
            q = p ∧ b = false := by
          intro tail q b hmem htail
          simp only [List.mem_cons, List.mem_append] at hmem
          rcases hmem with h | h | h | h
          · simpa using h
          · simp at h
          · exact absurd h (hpNoIdem q b)
          · exact absurd h (htail q b)
        have hcut : ∀ tail : List Event, cutoffs tail = [] →
            cutoffs (Event.idemCheck p false :: Event.readyWait true :: (ev ++ tail))
              = cutoffs ev := by
          intro tail htail
          rw [cutoffs_skip_cons (Event.idemCheck p false) _ rfl,
            cutoffs_skip_cons (Event.readyWait true) _ rfl, cutoffs_append, htail,
            List.append_nil]
        cases pr with
        | some e =>
          right
          obtain ⟨hc2, _⟩ := hpFail e rfl
          refine ⟨false, handleStsErrorE e env.stsName env.stsNamespace, s3,
            Event.idemCheck p false :: Event.readyWait true :: (ev ++ []), ?_, ?_, ?_⟩
          · simp [iter, hv, hr, hpp]
          · left
            rw [hcut [] rfl, hc2]
          · intro q b hmem
            exact hprefix [] q b hmem (by simp)
        | none =>
          obtain ⟨hc2, hp2⟩ := hpSucc rfl
          cases hpl : env.poll p s3.nPoll with
          | some m =>
            right
            refine ⟨false,
              .wrapped (s!"error while running verificationFunc on pod {p}") (.collab m),
              { s3 with nPoll := s3.nPoll + 1 },
              Event.idemCheck p false :: Event.readyWait true :: (ev ++ [.verifyWait p false]),
              ?_, ?_, ?_⟩
            · simp [iter, hv, hr, hpp, hpl]
            · right
              rw [hcut [.verifyWait p false] rfl, hc2]
            · intro q b hmem
              exact hprefix [.verifyWait p false] q b hmem (by simp)
          | none =>
            cases hgg : env.get s3.nGet with
            | some e =>
              right
              refine ⟨false, handleStsErrorE e env.stsName env.stsNamespace,
                { s3 with nPoll := s3.nPoll + 1, nGet := s3.nGet + 1 },
                Event.idemCheck p false :: Event.readyWait true
                  :: (ev ++ [.verifyWait p true, .getCall false]), ?_, ?_, ?_⟩
              · simp [iter, hv, hr, hpp, hpl, hgg]
              · right
                rw [hcut [.verifyWait p true, .getCall false] rfl, hc2]
              · intro q b hmem
                exact hprefix [.verifyWait p true, .getCall false] q b hmem (by simp)
            | none =>
              cases hpr : env.probe p s3.nProbe with
              | some m =>
                right
                refine ⟨false, .collab m,
                  { s3 with nPoll := s3.nPoll + 1, nGet := s3.nGet + 1, nProbe := s3.nProbe + 1 },
                  Event.idemCheck p false :: Event.readyWait true
                    :: (ev ++ [.verifyWait p true, .getCall true, .probeCall p false]), ?_, ?_, ?_⟩
                · simp [iter, hv, hr, hpp, hpl, hgg, hpr]
                · right
                  rw [hcut [.verifyWait p true, .getCall true, .probeCall p false] rfl, hc2]
                · intro q b hmem
                  exact hprefix [.verifyWait p true, .getCall true, .probeCall p false] q b hmem
                    (by simp)
              | none =>
                left
                refine ⟨{ s3 with nPoll := s3.nPoll + 1, nGet := s3.nGet + 1, nProbe := s3.nProbe + 1 },
                  Event.idemCheck p false :: Event.readyWait true
                    :: (ev ++ [.verifyWait p true, .getCall true, .probeCall p true]), ?_, ?_, ?_⟩
                · simp [iter, hv, hr, hpp, hpl, hgg, hpr]
                · rw [hcut [.verifyWait p true, .getCall true, .probeCall p true] rfl, hc2]
                · intro q b hmem
                  exact hprefix [.verifyWait p true, .getCall true, .probeCall p true] q b hmem
                    (by simp)

/- ### Loop invariants on the cutoff sequence -/

/-- In any execution, the successfully persisted cutoffs are (in order) a
subsequence of the ordinals visited by the loop. -/
theorem runLoop_cutoffs_sublist (env : StratEnv) :
    ∀ (ps : List Int) (skip : Bool) (s : RunState),
      (cutoffs (runLoop env ps skip s).2.2).Sublist ps := by
  intro ps
  induction ps with
  | nil =>
    intro skip s
    simp [runLoop, cutoffs]
  | cons p rest ih =>
    intro skip s
    rcases iter_cases env p s with h1 | ⟨s', ev, h2, hc, _⟩ | ⟨r, e, s', ev, h3, hc, _⟩
    · cases hrec : runLoop env rest true { s with nVerify := s.nVerify + 1 } with
      | mk rr s2ev =>
        obtain ⟨s'', ev'⟩ := s2ev
        have hsub := ih true { s with nVerify := s.nVerify + 1 }
        rw [hrec] at hsub
        simp only at hsub
        have hrw : (runLoop env (p :: rest) skip s).2.2 = Event.idemCheck p true :: ev' := by
          simp [runLoop, h1, hrec]
        rw [hrw, cutoffs_skip_cons (Event.idemCheck p true) ev' rfl]
        exact List.Sublist.cons p hsub
    · cases hrec : runLoop env rest false s' with
      | mk rr s2ev =>
        obtain ⟨s'', ev'⟩ := s2ev
        have hsub := ih false s'
        rw [hrec] at hsub
        simp only at hsub
        have hrw : (runLoop env (p :: rest) skip s).2.2 = ev ++ ev' := by
          simp [runLoop, h2, hrec]
        rw [hrw, cutoffs_append, hc]
        exact List.Sublist.cons₂ p hsub
    · have hrw : (runLoop env (p :: rest) skip s).2.2 = ev := by
        simp [runLoop, h3]
      rw [hrw]
      rcases hc with hc | hc
      · rw [hc]
        exact List.nil_sublist _
      · rw [hc]
        exact List.Sublist.cons₂ p (List.nil_sublist rest)

/-- In an execution that completes without error and in which no
idempotence check ever passed, the persisted cutoffs are exactly the
visited ordinals, one per iteration. -/
theorem runLoop_cutoffs_exact (env : StratEnv) :
    ∀ (ps : List Int) (skip : Bool) (s : RunState),
      (runLoop env ps skip s).1.2 = none →
      (∀ q, Event.idemCheck q true ∉ (runLoop env ps skip s).2.2) →
      cutoffs (runLoop env ps skip s).2.2 = ps := by
  intro ps
  induction ps with
  | nil =>
    intro skip s _ _
    simp [runLoop, cutoffs]
  | cons p rest ih =>
    intro skip s herr hno
    rcases iter_cases env p s with h1 | ⟨s', ev, h2, hc, hmem⟩ | ⟨r, e, s', ev, h3, hc, hmem⟩
    · cases hrec : runLoop env rest true { s with nVerify := s.nVerify + 1 } with
      | mk rr s2ev =>
        obtain ⟨s'', ev'⟩ := s2ev
        have hrw : (runLoop env (p :: rest) skip s).2.2 = Event.idemCheck p true :: ev' := by
          simp [runLoop, h1, hrec]
        refine absurd ?_ (hno p)
        rw [hrw]
        exact List.mem_cons_self _ _
    · cases hrec : runLoop env rest false s' with
      | mk rr s2ev =>
        obtain ⟨s'', ev'⟩ := s2ev
        have hrw : (runLoop env (p :: rest) skip s).2.2 = ev ++ ev' := by
          simp [runLoop, h2, hrec]
        have herr2 : (runLoop env (p :: rest) skip s).1.2 = rr.2 := by
          simp [runLoop, h2, hrec]
        have hih := ih false s' (by rw [hrec]; exact (herr2.symm.trans herr))
          (fun q hq => hno q (by rw [hrw]; exact List.mem_append_right ev (by rw [hrec] at hq; exact hq)))
        rw [hrec] at hih
        simp only at hih
        rw [hrw, cutoffs_append, hc, hih]
        rfl
    · have herr2 : (runLoop env (p :: rest) skip s).1.2 = some e := by
        simp [runLoop, h3]
      exact absurd (herr.symm.trans herr2) (by simp)

/-- Every element of `partitionListAux n` is an ordinal `0 ≤ q < n`. -/
theorem partitionListAux_mem : ∀ (n : Nat) (q : Int),
    q ∈ partitionListAux n → 0 ≤ q ∧ q < n := by
  intro n
  induction n with
  | zero =>
    intro q h
    simp [partitionListAux] at h
  | succ m ih =>
    intro q h
    rcases List.mem_cons.mp h with h1 | h1
    · subst h1
      constructor
      · exact Int.natCast_nonneg m
      · push_cast
        omega
    · obtain ⟨h2, h3⟩ := ih q h1
      refine ⟨h2, ?_⟩
      push_cast
      omega

/-- The visited ordinal sequence is strictly decreasing. -/
theorem partitionListAux_pairwise :
    ∀ n : Nat, (partitionListAux n).Pairwise (fun a b => b < a) := by
  intro n
  induction n with
  | zero =>
    simp [partitionListAux]
  | succ m ih =>
    refine List.Pairwise.cons ?_ ih
    intro b hb
    exact (partitionListAux_mem m b hb).2

/- ### C1 -/

/-- C1 counterexample: a 1-replica execution whose single ordinal passes
the pre-mutation idempotence check completes without error yet never sets
the partition cutoff at all — the cutoff write sequence is not
`N-1, …, 0`, so an ordinal's write may be skipped (by the idempotence
check), contrary to the claim. -/
theorem C1_counterexample :
    (runStrategy envAllVerified).1.2 = none ∧
    cutoffs (runStrategy envAllVerified).2.2 ≠ partitionSeq envAllVerified.replicas := by
  constructor
  · rfl
  · decide

/-- C1 amended: in every execution the values the strategy writes to the
partition cutoff form a subsequence of `N-1, …, 0` in strictly decreasing
order — each non-skipped iteration writes exactly its own ordinal, the
cutoff is never increased and never revisited; and whenever the execution
completes without error and no iteration is skipped by the idempotence
check, the written values are exactly `N-1, …, 0`, one per iteration. -/
theorem C1_amended_cutoff_sequence (env : StratEnv) :
    (cutoffs (runStrategy env).2.2).Sublist (partitionSeq env.replicas) ∧
    (cutoffs (runStrategy env).2.2).Pairwise (fun a b => b < a) ∧
    ((runStrategy env).1.2 = none →
      (∀ q, Event.idemCheck q true ∉ (runStrategy env).2.2) →
      cutoffs (runStrategy env).2.2 = partitionSeq env.replicas) := by
  refine ⟨runLoop_cutoffs_sublist env _ _ _, ?_,
    fun h1 h2 => runLoop_cutoffs_exact env _ _ _ h1 h2⟩
  exact List.Pairwise.sublist (runLoop_cutoffs_sublist env _ _ _)
    (partitionListAux_pairwise _)

/-- Witness for the amended C1: a fresh 3-replica rollout (no idempotence
skip, no failure) writes exactly the cutoffs 2, 1, 0. -/
theorem C1_amended_cutoff_sequence_witness :
    cutoffs (runStrategy envFreshRollout).2.2 = partitionSeq envFreshRollout.replicas := by
  refine (C1_amended_cutoff_sequence envFreshRollout).2.2 rfl ?_
  intro q
  have htr : (runStrategy envFreshRollout).2.2
      = [.idemCheck 2 false, .readyWait true, .updateAttempt 2, .cutoffSet 2,
         .verifyWait 2 true, .getCall true, .probeCall 2 true,
         .idemCheck 1 false, .readyWait true, .updateAttempt 1, .cutoffSet 1,
         .verifyWait 1 true, .getCall true, .probeCall 1 true,
         .idemCheck 0 false, .readyWait true, .updateAttempt 0, .cutoffSet 0,
         .verifyWait 0 true, .getCall true, .probeCall 0 true] := rfl
  rw [htr]
  simp

/- ### C10: the hint reflects only the final iteration -/

/-- One-step unfolding of the loop when the iteration continues. -/
theorem runLoop_cons_cont (env : StratEnv) (p : Int) (rest : List Int)
    (skip : Bool) (s : RunState) (skip' : Bool) (s1 : RunState) (ev : List Event)
    (h : iter env p s = (.cont skip', s1, ev)) :
    runLoop env (p :: rest) skip s
      = ((runLoop env rest skip' s1).1, (runLoop env rest skip' s1).2.1,
         ev ++ (runLoop env rest skip' s1).2.2) := by
  cases hrec : runLoop env rest skip' s1 with
  | mk r s2ev =>
    cases s2ev with
    | mk s2 ev2 =>
      simp [runLoop, h, hrec]

/-- One-step unfolding of the loop when the iteration aborts. -/
theorem runLoop_cons_abort (env : StratEnv) (p : Int) (rest : List Int)
    (skip : Bool) (s : RunState) (ret : Bool) (e : Err) (s1 : RunState) (ev : List Event)
    (h : iter env p s = (.abort ret e, s1, ev)) :
    runLoop env (p :: rest) skip s = ((ret, some e), s1, ev) := by
  simp [runLoop, h]

/-- In an execution over ordinals `ps` (last ordinal `z`, distinct from
all earlier ones) that completes without error, the returned `skipSleep`
is true exactly when the final iteration was skipped by the idempotence
check. -/
theorem runLoop_hint_last (env : StratEnv) :
    ∀ (ps : List Int) (skip : Bool) (s : RunState) (z : Int),
      ps.getLast? = some z →
      (∀ q ∈ ps.dropLast, q ≠ z) →
      ∀ (hint : Bool) (s' : RunState) (tr : List Event),
        runLoop env ps skip s = ((hint, none), s', tr) →
        (hint = true ↔ Event.idemCheck z true ∈ tr) := by
  intro ps
  induction ps with
  | nil =>
    intro skip s z hz
    simp at hz
  | cons p rest ih =>
    intro skip s z hz hdrop hint s' tr heq
    cases rest with
    | nil =>
      have hzp : z = p := by simpa using hz.symm
      subst hzp
      rcases iter_cases env z s with h1 | ⟨s1, ev, h2, hc, hmem⟩ | ⟨r, e, s1, ev, h3, hc, hmem⟩
      · have hrw : runLoop env [z] skip s
            = ((true, none), { s with nVerify := s.nVerify + 1 }, [Event.idemCheck z true]) := by
          simp [runLoop, h1]
        rw [hrw] at heq
        simp only [Prod.mk.injEq] at heq
        obtain ⟨⟨hh, _⟩, _, htr⟩ := heq
        rw [← hh, ← htr]
        simp
      · have hrw : runLoop env [z] skip s = ((false, none), s1, ev) := by
          simp [runLoop, h2]
        rw [hrw] at heq
        simp only [Prod.mk.injEq] at heq
        obtain ⟨⟨hh, _⟩, _, htr⟩ := heq
        rw [← hh, ← htr]
        constructor
        · intro habs
          simp at habs
        · intro hm
          have := (hmem z true hm).2
          simp at this
      · have hrw : runLoop env [z] skip s = ((r, some e), s1, ev) := by
          simp [runLoop, h3]
        rw [hrw] at heq
        simp only [Prod.mk.injEq] at heq
        obtain ⟨⟨_, habs⟩, _⟩ := heq
        simp at habs
    | cons p2 rest2 =>
      have hz2 : (p2 :: rest2).getLast? = some z := by
        rw [List.getLast?_cons_cons] at hz
        exact hz
      have hp_ne : p ≠ z := by
        apply hdrop
        rw [List.dropLast_cons₂]
        exact List.mem_cons_self _ _
      have hdrop2 : ∀ q ∈ (p2 :: rest2).dropLast, q ≠ z := by
        intro q hq
        apply hdrop
        rw [List.dropLast_cons₂]
        exact List.mem_cons_of_mem p hq
      rcases iter_cases env p s with h1 | ⟨s1, ev, h2, hc, hmem⟩ | ⟨r, e, s1, ev, h3, hc, hmem⟩
      · cases hrec : runLoop env (p2 :: rest2) true { s with nVerify := s.nVerify + 1 } with
        | mk rr s2ev =>
          obtain ⟨s'', ev'⟩ := s2ev
          have hrw : runLoop env (p :: p2 :: rest2) skip s
              = (rr, s'', Event.idemCheck p true :: ev') := by
            rw [runLoop_cons_cont env p (p2 :: rest2) skip s true _ _ h1, hrec]
            rfl
          rw [hrw] at heq
          simp only [Prod.mk.injEq] at heq
          obtain ⟨hrr, _, htr⟩ := heq
          rw [hrr] at hrec
          have hih := ih true { s with nVerify := s.nVerify + 1 } z hz2 hdrop2 hint s'' ev' hrec
          rw [← htr]
          constructor
          · intro hh
            exact List.mem_cons_of_mem _ (hih.mp hh)
          · intro hm
            rcases List.mem_cons.mp hm with hhead | htail
            · have h4 := hhead
              simp at h4
              exact absurd h4.symm hp_ne
            · exact hih.mpr htail
      · cases hrec : runLoop env (p2 :: rest2) false s1 with
        | mk rr s2ev =>
          obtain ⟨s'', ev'⟩ := s2ev
          have hrw : runLoop env (p :: p2 :: rest2) skip s = (rr, s'', ev ++ ev') := by
            rw [runLoop_cons_cont env p (p2 :: rest2) skip s false _ _ h2, hrec]
          rw [hrw] at heq
          simp only [Prod.mk.injEq] at heq
          obtain ⟨hrr, _, htr⟩ := heq
          rw [hrr] at hrec
          have hih := ih false s1 z hz2 hdrop2 hint s'' ev' hrec
          rw [← htr]
          constructor
          · intro hh
            exact List.mem_append_right ev (hih.mp hh)
          · intro hm
            rcases List.mem_append.mp hm with hl | hrt
            · have := (hmem z true hl).2
              simp at this
            · exact hih.mpr hrt
      · have hrw : runLoop env (p :: p2 :: rest2) skip s = ((r, some e), s1, ev) :=
          runLoop_cons_abort env p (p2 :: rest2) skip s r e s1 ev h3
        rw [hrw] at heq
        simp only [Prod.mk.injEq] at heq
        obtain ⟨⟨_, habs⟩, _⟩ := heq
        simp at habs

/-- When `n ≥ 1` the last visited ordinal is 0. -/
theorem partitionListAux_getLast : ∀ n : Nat, 0 < n →
    (partitionListAux n).getLast? = some 0 := by
  intro n
  induction n with
  | zero =>
    intro h
    omega
  | succ m ih =>
    intro _
    cases m with
    | zero =>
      rfl
    | succ k =>
      rw [show partitionListAux (k + 1 + 1) = ((k + 1 : Nat) : Int) :: partitionListAux (k + 1) from rfl]
      rw [show partitionListAux (k + 1) = ((k : Nat) : Int) :: partitionListAux k from rfl]
      rw [List.getLast?_cons_cons]
      rw [show ((k : Nat) : Int) :: partitionListAux k = partitionListAux (k + 1) from rfl]
      exact ih (by omega)

/-- Every ordinal before the last one is at least 1. -/
theorem partitionListAux_dropLast_pos :
    ∀ n : Nat, ∀ q ∈ (partitionListAux n).dropLast, 1 ≤ q := by
  intro n
  induction n with
  | zero =>
    intro q hq
    simp [partitionListAux] at hq
  | succ m ih =>
    intro q hq
    cases m with
    | zero =>
      simp [partitionListAux] at hq
    | succ k =>
      rw [show partitionListAux (k + 1 + 1) = ((k + 1 : Nat) : Int) :: partitionListAux (k + 1) from rfl] at hq
      have hne : partitionListAux (k + 1) ≠ [] := by
        rw [show partitionListAux (k + 1) = ((k : Nat) : Int) :: partitionListAux k from rfl]
        exact List.cons_ne_nil _ _
      rw [show partitionListAux (k + 1) = ((k : Nat) : Int) :: partitionListAux k from rfl] at hq
      rw [List.dropLast_cons₂] at hq
      rcases List.mem_cons.mp hq with h1 | h1
      · subst h1
        push_cast
        omega
      · rw [show ((k : Nat) : Int) :: partitionListAux k = partitionListAux (k + 1) from rfl] at h1
        exact ih q h1

/-- C10: for `N ≥ 1`, on a rollout that completes without error the
returned `skipSleep` hint is true if and only if the final iteration
(ordinal 0) was skipped by the idempotence check — the hint is reset to
`false` at the start of every non-skipped iteration, so a skip at an
earlier ordinal does not survive into the returned value. -/
theorem C10_hint_iff_last_skipped (env : StratEnv) (hN : 1 ≤ env.replicas)
    (hint : Bool) (s' : RunState) (tr : List Event)
    (h : runStrategy env = ((hint, none), s', tr)) :
    hint = true ↔ Event.idemCheck 0 true ∈ tr := by
  have hpos : 0 < env.replicas.toNat := by omega
  refine runLoop_hint_last env (partitionSeq env.replicas) false initialState 0
    (partitionListAux_getLast env.replicas.toNat hpos) ?_ hint s' tr h
  intro q hq
  have := partitionListAux_dropLast_pos env.replicas.toNat q hq
  omega

/-- Witness for C10: a 1-replica cluster whose only ordinal is skipped
returns hint `true`; the same cluster rolled out fresh returns hint
`false`. -/
theorem C10_hint_iff_last_skipped_witness :
    (true = true ↔ Event.idemCheck 0 true ∈ [Event.idemCheck 0 true]) ∧
    (false = true ↔ Event.idemCheck 0 true ∈
      [Event.idemCheck (0 : Int) false, .readyWait true, .updateAttempt 0, .cutoffSet 0,
       .verifyWait 0 true, .getCall true, .probeCall 0 true]) :=
  ⟨C10_hint_iff_last_skipped envAllVerified (by decide) true
      { initialState with nVerify := 1 } [Event.idemCheck 0 true] rfl,
   C10_hint_iff_last_skipped { envFreshRollout with replicas := 1 } (by decide) false
      ⟨1, 1, 1, 1, 1, 1, some 0⟩
      [Event.idemCheck (0 : Int) false, .readyWait true, .updateAttempt 0, .cutoffSet 0,
       .verifyWait 0 true, .getCall true, .probeCall 0 true] rfl⟩

/- ### C3: the conflict-retry wrapper -/

theorem retryOnConflict_zero (env : StratEnv) (p : Int) (lastE : StoreErr) (s : RunState) :
    retryOnConflict env p 0 lastE s = (some lastE, s, []) := rfl

/-- A Get failure aborts the `RetryOnConflict` attempt. -/
theorem retryFn_get_fail (env : StratEnv) (p : Int) (s : RunState) (e : StoreErr)
    (h : env.get s.nGet = some e) :
    retryFn env p s = (some e, { s with nGet := s.nGet + 1 }, [.getCall false]) := by
  simp [retryFn, h]

/-- An Update failure after a successful Get. -/
theorem retryFn_update_fail (env : StratEnv) (p : Int) (s : RunState) (e : StoreErr)
    (hg : env.get s.nGet = none) (hu : env.update s.nUpdate = some e) :
    retryFn env p s
      = (some e, { s with nGet := s.nGet + 1, nUpdate := s.nUpdate + 1 },
         [.getCall true, .updateAttempt p]) := by
  obtain ⟨a, b, c, d, e0, f, g⟩ := s
  simp_all [retryFn]

/-- A fully successful `RetryOnConflict` attempt persists cutoff `p`. -/
theorem retryFn_success (env : StratEnv) (p : Int) (s : RunState)
    (hg : env.get s.nGet = none) (hu : env.update s.nUpdate = none) :
    retryFn env p s
      = (none, { s with nGet := s.nGet + 1, nUpdate := s.nUpdate + 1, persisted := some p },
         [.getCall true, .updateAttempt p, .cutoffSet p]) := by
  obtain ⟨a, b, c, d, e0, f, g⟩ := s
  simp_all [retryFn]

theorem retryOnConflict_step_success (env : StratEnv) (p : Int) (n : Nat) (lastE : StoreErr)
    (s s' : RunState) (ev : List Event) (h : retryFn env p s = (none, s', ev)) :
    retryOnConflict env p (n + 1) lastE s = (none, s', ev) := by
  simp [retryOnConflict, h]

theorem retryOnConflict_step_nonconflict (env : StratEnv) (p : Int) (n : Nat) (lastE : StoreErr)
    (s s' : RunState) (e : StoreErr) (ev : List Event)
    (h : retryFn env p s = (some e, s', ev)) (hc : e.isConflict = false) :
    retryOnConflict env p (n + 1) lastE s = (some e, s', ev) := by
  simp [retryOnConflict, h, hc]

theorem retryOnConflict_step_conflict (env : StratEnv) (p : Int) (n : Nat) (lastE : StoreErr)
    (s s' : RunState) (e : StoreErr) (ev : List Event)
    (h : retryFn env p s = (some e, s', ev)) (hc : e.isConflict = true) :
    retryOnConflict env p (n + 1) lastE s
      = ((retryOnConflict env p n e s').1, (retryOnConflict env p n e s').2.1,
         ev ++ (retryOnConflict env p n e s').2.2) := by
  cases hrec : retryOnConflict env p n e s' with
  | mk r s2ev =>
    cases s2ev with
    | mk s2 ev2 =>
      simp [retryOnConflict, h, hc, hrec]

/-- If `K` attempts conflict and the next succeeds, with `K + 1` within
the step budget, the retry loop succeeds, persisting cutoff `p` and
consuming exactly `K + 1` Update calls and `K + 1` Get calls. -/
theorem retryOnConflict_success (env : StratEnv) (p : Int) :
    ∀ (K : Nat) (cm : Nat → String) (n : Nat) (lastE : StoreErr) (s : RunState), K < n →
      (∀ i, i < K → env.update (s.nUpdate + i) = some (.conflict (cm i))) →
      env.update (s.nUpdate + K) = none →
      (∀ j, j < K + 1 → env.get (s.nGet + j) = none) →
      ∃ ev, retryOnConflict env p n lastE s
        = (none, { s with nUpdate := s.nUpdate + K + 1, nGet := s.nGet + K + 1, persisted := some p }, ev) := by
  intro K
  induction K with
  | zero =>
    intro cm n lastE s hn hconf hsucc hget
    cases n with
    | zero => omega
    | succ m =>
      have hg : env.get s.nGet = none := by
        have := hget 0 (by omega)
        simpa using this
      have hu : env.update s.nUpdate = none := by simpa using hsucc
      refine ⟨[.getCall true, .updateAttempt p, .cutoffSet p], ?_⟩
      rw [retryOnConflict_step_success env p m lastE s _ _ (retryFn_success env p s hg hu)]
  | succ K ih =>
    intro cm n lastE s hn hconf hsucc hget
    cases n with
    | zero => omega
    | succ m =>
      have hg : env.get s.nGet = none := by
        have := hget 0 (by omega)
        simpa using this
      have hu : env.update s.nUpdate = some (.conflict (cm 0)) := by
        have := hconf 0 (by omega)
        simpa using this
      have hstep := retryFn_update_fail env p s _ hg hu
      obtain ⟨ev', hrec⟩ := ih (fun i => cm (i + 1)) m (.conflict (cm 0))
        { s with nGet := s.nGet + 1, nUpdate := s.nUpdate + 1 } (by omega)
        (by
          intro i hi
          have := hconf (i + 1) (by omega)
          simp only
          rw [show s.nUpdate + 1 + i = s.nUpdate + (i + 1) from by omega]
          exact this)
        (by
          simp only
          rw [show s.nUpdate + 1 + K = s.nUpdate + (K + 1) from by omega]
          exact hsucc)
        (by
          intro j hj
          have := hget (j + 1) (by omega)
          simp only
          rw [show s.nGet + 1 + j = s.nGet + (j + 1) from by omega]
          exact this)
      refine ⟨[.getCall true, .updateAttempt p] ++ ev', ?_⟩
      rw [retryOnConflict_step_conflict env p m lastE s _ _ _ hstep rfl, hrec]
      simp only
      rw [show s.nUpdate + 1 + K + 1 = s.nUpdate + (K + 1) + 1 from by omega,
        show s.nGet + 1 + K + 1 = s.nGet + (K + 1) + 1 from by omega]

/-- If every attempt conflicts, the retry loop exhausts its budget and
returns the last conflict, leaving the persisted cutoff unchanged. -/
theorem retryOnConflict_exhaust (env : StratEnv) (p : Int) :
    ∀ (n : Nat) (cm : Nat → String) (lastE : StoreErr) (s : RunState), 1 ≤ n →
      (∀ i, i < n → env.update (s.nUpdate + i) = some (.conflict (cm i))) →
      (∀ j, j < n → env.get (s.nGet + j) = none) →
      ∃ s' ev, retryOnConflict env p n lastE s = (some (.conflict (cm (n - 1))), s', ev)
        ∧ s'.persisted = s.persisted := by
  intro n
  induction n with
  | zero =>
    intro cm lastE s h
    omega
  | succ m ih =>
    intro cm lastE s _ hconf hget
    have hg : env.get s.nGet = none := by
      have := hget 0 (by omega)
      simpa using this
    have hu : env.update s.nUpdate = some (.conflict (cm 0)) := by
      have := hconf 0 (by omega)
      simpa using this
    have hstep := retryFn_update_fail env p s _ hg hu
    cases m with
    | zero =>
      refine ⟨{ s with nGet := s.nGet + 1, nUpdate := s.nUpdate + 1 },
        [.getCall true, .updateAttempt p], ?_, rfl⟩
      rw [retryOnConflict_step_conflict env p 0 lastE s _ _ _ hstep rfl,
        retryOnConflict_zero]
      simp
    | succ k =>
      obtain ⟨s', ev', hrec, hpers⟩ := ih (fun i => cm (i + 1)) (.conflict (cm 0))
        { s with nGet := s.nGet + 1, nUpdate := s.nUpdate + 1 } (by omega)
        (by
          intro i hi
          have := hconf (i + 1) (by omega)
          simp only
          rw [show s.nUpdate + 1 + i = s.nUpdate + (i + 1) from by omega]
          exact this)
        (by
          intro j hj
          have := hget (j + 1) (by omega)
          simp only
          rw [show s.nGet + 1 + j = s.nGet + (j + 1) from by omega]
          exact this)
      refine ⟨s', [.getCall true, .updateAttempt p] ++ ev', ?_, by simpa using hpers⟩
      rw [retryOnConflict_step_conflict env p (k + 1) lastE s _ _ _ hstep rfl, hrec]
      simp

/-- A non-conflict Update failure at attempt `K` stops the retry loop at
once: exactly `K + 1` Update calls and `K + 1` Get calls are consumed. -/
theorem retryOnConflict_shortcircuit_update (env : StratEnv) (p : Int) (e : StoreErr)
    (hne : e.isConflict = false) :
    ∀ (K : Nat) (cm : Nat → String) (n : Nat) (lastE : StoreErr) (s : RunState), K < n →
      (∀ i, i < K → env.update (s.nUpdate + i) = some (.conflict (cm i))) →
      env.update (s.nUpdate + K) = some e →
      (∀ j, j < K + 1 → env.get (s.nGet + j) = none) →
      ∃ ev, retryOnConflict env p n lastE s
        = (some e, { s with nUpdate := s.nUpdate + K + 1, nGet := s.nGet + K + 1 }, ev) := by
  intro K
  induction K with
  | zero =>
    intro cm n lastE s hn hconf hfail hget
    cases n with
    | zero => omega
    | succ m =>
      have hg : env.get s.nGet = none := by
        have := hget 0 (by omega)
        simpa using this
      have hu : env.update s.nUpdate = some e := by simpa using hfail
      refine ⟨[.getCall true, .updateAttempt p], ?_⟩
      rw [retryOnConflict_step_nonconflict env p m lastE s _ _ _
        (retryFn_update_fail env p s _ hg hu) hne]
  | succ K ih =>
    intro cm n lastE s hn hconf hfail hget
    cases n with
    | zero => omega
    | succ m =>
      have hg : env.get s.nGet = none := by
        have := hget 0 (by omega)
        simpa using this
      have hu : env.update s.nUpdate = some (.conflict (cm 0)) := by
        have := hconf 0 (by omega)
        simpa using this
      have hstep := retryFn_update_fail env p s _ hg hu
      obtain ⟨ev', hrec⟩ := ih (fun i => cm (i + 1)) m (.conflict (cm 0))
        { s with nGet := s.nGet + 1, nUpdate := s.nUpdate + 1 } (by omega)
        (by
          intro i hi
          have := hconf (i + 1) (by omega)
          simp only
          rw [show s.nUpdate + 1 + i = s.nUpdate + (i + 1) from by omega]
          exact this)
        (by
          simp only
          rw [show s.nUpdate + 1 + K = s.nUpdate + (K + 1) from by omega]
          exact hfail)
        (by
          intro j hj
          have := hget (j + 1) (by omega)
          simp only
          rw [show s.nGet + 1 + j = s.nGet + (j + 1) from by omega]
          exact this)
      refine ⟨[.getCall true, .updateAttempt p] ++ ev', ?_⟩
      rw [retryOnConflict_step_conflict env p m lastE s _ _ _ hstep rfl, hrec]
      simp only
      rw [show s.nUpdate + 1 + K + 1 = s.nUpdate + (K + 1) + 1 from by omega,
        show s.nGet + 1 + K + 1 = s.nGet + (K + 1) + 1 from by omega]

/-- A non-conflict Get failure at attempt `K` stops the retry loop at
once: `K` Update calls and `K + 1` Get calls are consumed. -/
theorem retryOnConflict_shortcircuit_get (env : StratEnv) (p : Int) (e : StoreErr)
    (hne : e.isConflict = false) :
    ∀ (K : Nat) (cm : Nat → String) (n : Nat) (lastE : StoreErr) (s : RunState), K < n →
      (∀ i, i < K → env.update (s.nUpdate + i) = some (.conflict (cm i))) →
      (∀ j, j < K → env.get (s.nGet + j) = none) →
      env.get (s.nGet + K) = some e →
      ∃ ev, retryOnConflict env p n lastE s
        = (some e, { s with nUpdate := s.nUpdate + K, nGet := s.nGet + K + 1 }, ev) := by
  intro K
  induction K with
  | zero =>
    intro cm n lastE s hn hconf hget hfail
    cases n with
    | zero => omega
    | succ m =>
      have hg : env.get s.nGet = some e := by simpa using hfail
      refine ⟨[.getCall false], ?_⟩
      rw [retryOnConflict_step_nonconflict env p m lastE s _ _ _
        (retryFn_get_fail env p s _ hg) hne]
      obtain ⟨a, b, c, d, e0, f, g⟩ := s
      simp
  | succ K ih =>
    intro cm n lastE s hn hconf hget hfail
    cases n with
    | zero => omega
    | succ m =>
      have hg : env.get s.nGet = none := by
        have := hget 0 (by omega)
        simpa using this
      have hu : env.update s.nUpdate = some (.conflict (cm 0)) := by
        have := hconf 0 (by omega)
        simpa using this
      have hstep := retryFn_update_fail env p s _ hg hu
      obtain ⟨ev', hrec⟩ := ih (fun i => cm (i + 1)) m (.conflict (cm 0))
        { s with nGet := s.nGet + 1, nUpdate := s.nUpdate + 1 } (by omega)
        (by
          intro i hi
          have := hconf (i + 1) (by omega)
          simp only
          rw [show s.nUpdate + 1 + i = s.nUpdate + (i + 1) from by omega]
          exact this)
        (by
          intro j hj
          have := hget (j + 1) (by omega)
          simp only
          rw [show s.nGet + 1 + j = s.nGet + (j + 1) from by omega]
          exact this)
        (by
          simp only
          rw [show s.nGet + 1 + K = s.nGet + (K + 1) from by omega]
          exact hfail)
      refine ⟨[.getCall true, .updateAttempt p] ++ ev', ?_⟩
      rw [retryOnConflict_step_conflict env p m lastE s _ _ _ hstep rfl, hrec]
      simp only
      rw [show s.nUpdate + 1 + K = s.nUpdate + (K + 1) from by omega,
        show s.nGet + 1 + K + 1 = s.nGet + (K + 1) + 1 from by omega]

/-- One-step unfolding of the mutation phase when the first Update
conflicts. -/
theorem persistPartition_conflict_step (env : StratEnv) (p : Int) (s : RunState) (e : StoreErr)
    (h : env.update s.nUpdate = some e) (hc : e.isConflict = true) :
    persistPartition env p s
      = ((retryOnConflict env p defaultRetrySteps e { s with nUpdate := s.nUpdate + 1 }).1,
         (retryOnConflict env p defaultRetrySteps e { s with nUpdate := s.nUpdate + 1 }).2.1,
         [.updateAttempt p]
           ++ (retryOnConflict env p defaultRetrySteps e { s with nUpdate := s.nUpdate + 1 }).2.2) := by
  cases hr : retryOnConflict env p defaultRetrySteps e { s with nUpdate := s.nUpdate + 1 } with
  | mk r s2ev =>
    cases s2ev with
    | mk s2 ev2 =>
      simp [persistPartition, h, hc, hr]

/-- C3: the conflict-retry behaviour of the mutation phase.
(1) If the store returns Conflict exactly `M` times for one ordinal's
mutation and then succeeds, with `M` below the retry budget (the first
Update plus `retry.DefaultRetry`'s five steps), the mutation persists with
the intended partition value, reapplied after each re-fetch (`M + 1`
Update calls in total).
(2) If Conflict is returned at least as many times as the budget, the
strategy's mutation phase returns a Conflict-classified error and the
persisted cutoff is unchanged.
(3) A non-conflict failure of the first Update returns at once, with no
retry attempt.
(4) A non-conflict Update failure inside the retry loop short-circuits
immediately: no further Update or Get call is made past it.
(5) A non-conflict Get failure inside the retry loop short-circuits
immediately as well. -/
theorem C3_conflict_retry :
    (∀ (env : StratEnv) (p : Int) (s : RunState) (cm : Nat → String) (M : Nat),
      M < retryBudget →
      (∀ i, i < M → env.update (s.nUpdate + i) = some (.conflict (cm i))) →
      env.update (s.nUpdate + M) = none →
      (∀ j, j < M → env.get (s.nGet + j) = none) →
      ∃ s' ev, persistPartition env p s = (none, s', ev) ∧ s'.persisted = some p ∧
        s'.nUpdate = s.nUpdate + M + 1) ∧
    (∀ (env : StratEnv) (p : Int) (s : RunState) (cm : Nat → String),
      (∀ i, i < retryBudget → env.update (s.nUpdate + i) = some (.conflict (cm i))) →
      (∀ j, j < defaultRetrySteps → env.get (s.nGet + j) = none) →
      ∃ s' ev, persistPartition env p s = (some (.conflict (cm defaultRetrySteps)), s', ev) ∧
        s'.persisted = s.persisted ∧
        ((StoreErr.conflict (cm defaultRetrySteps)).isConflict = true)) ∧
    (∀ (env : StratEnv) (p : Int) (s : RunState) (e : StoreErr),
      e.isConflict = false → env.update s.nUpdate = some e →
      persistPartition env p s = (some e, { s with nUpdate := s.nUpdate + 1 }, [.updateAttempt p])) ∧
    (∀ (env : StratEnv) (p : Int) (s : RunState) (cm : Nat → String) (e : StoreErr) (K : Nat),
      K < defaultRetrySteps → e.isConflict = false →
      (∀ i, i < K + 1 → env.update (s.nUpdate + i) = some (.conflict (cm i))) →
      env.update (s.nUpdate + K + 1) = some e →
      (∀ j, j < K + 1 → env.get (s.nGet + j) = none) →
      ∃ s' ev, persistPartition env p s = (some e, s', ev) ∧
        s'.nUpdate = s.nUpdate + K + 2 ∧ s'.nGet = s.nGet + K + 1) ∧
    (∀ (env : StratEnv) (p : Int) (s : RunState) (cm : Nat → String) (e : StoreErr) (K : Nat),
      K < defaultRetrySteps → e.isConflict = false →
      (∀ i, i < K + 1 → env.update (s.nUpdate + i) = some (.conflict (cm i))) →
      (∀ j, j < K → env.get (s.nGet + j) = none) →
      env.get (s.nGet + K) = some e →
      ∃ s' ev, persistPartition env p s = (some e, s', ev) ∧
        s'.nUpdate = s.nUpdate + K + 1 ∧ s'.nGet = s.nGet + K + 1) := by
  refine ⟨?_, ?_, ?_, ?_, ?_⟩
  · -- (1) success after M conflicts
    intro env p s cm M hM hconf hsucc hget
    cases M with
    | zero =>
      have hu : env.update s.nUpdate = none := by simpa using hsucc
      refine ⟨{ s with nUpdate := s.nUpdate + 1, persisted := some p },
        [.updateAttempt p, .cutoffSet p], by simp [persistPartition, hu], rfl, rfl⟩
    | succ K =>
      have hu : env.update s.nUpdate = some (.conflict (cm 0)) := by
        have := hconf 0 (by omega)
        simpa using this
      obtain ⟨ev', hrec⟩ := retryOnConflict_success env p K (fun i => cm (i + 1))
        defaultRetrySteps (.conflict (cm 0)) { s with nUpdate := s.nUpdate + 1 }
        (by simp only [retryBudget] at hM; omega)
        (by
          intro i hi
          have := hconf (i + 1) (by omega)
          simp only
          rw [show s.nUpdate + 1 + i = s.nUpdate + (i + 1) from by omega]
          exact this)
        (by
          simp only
          rw [show s.nUpdate + 1 + K = s.nUpdate + (K + 1) from by omega]
          exact hsucc)
        (by
          intro j hj
          exact hget j (by omega))
      have hmain : persistPartition env p s
          = (none,
             { s with nUpdate := s.nUpdate + 1 + K + 1, nGet := s.nGet + K + 1, persisted := some p },
             [.updateAttempt p] ++ ev') := by
        rw [persistPartition_conflict_step env p s _ hu rfl, hrec]
      refine ⟨_, _, hmain, rfl, ?_⟩
      show s.nUpdate + 1 + K + 1 = s.nUpdate + (K + 1) + 1
      omega
  · -- (2) exhaustion
    intro env p s cm hconf hget
    have hu : env.update s.nUpdate = some (.conflict (cm 0)) := by
      have := hconf 0 (by simp [retryBudget])
      simpa using this
    obtain ⟨s', ev', hrec, hpers⟩ := retryOnConflict_exhaust env p defaultRetrySteps
      (fun i => cm (i + 1)) (.conflict (cm 0)) { s with nUpdate := s.nUpdate + 1 }
      (by simp [defaultRetrySteps])
      (by
        intro i hi
        have := hconf (i + 1) (by simp only [retryBudget]; omega)
        simp only
        rw [show s.nUpdate + 1 + i = s.nUpdate + (i + 1) from by omega]
        exact this)
      (by
        intro j hj
        exact hget j hj)
    refine ⟨s', [.updateAttempt p] ++ ev', ?_, by simpa using hpers, rfl⟩
    rw [persistPartition_conflict_step env p s _ hu rfl, hrec]
    simp [defaultRetrySteps]
  · -- (3) first Update fails with a non-conflict error
    intro env p s e hne hu
    simp [persistPartition, hu, hne]
  · -- (4) non-conflict Update failure inside the retry loop
    intro env p s cm e K hK hne hconf hfail hget
    have hu : env.update s.nUpdate = some (.conflict (cm 0)) := by
      have := hconf 0 (by omega)
      simpa using this
    obtain ⟨ev', hrec⟩ := retryOnConflict_shortcircuit_update env p e hne K
      (fun i => cm (i + 1)) defaultRetrySteps (.conflict (cm 0))
      { s with nUpdate := s.nUpdate + 1 } hK
      (by
        intro i hi
        have := hconf (i + 1) (by omega)
        simp only
        rw [show s.nUpdate + 1 + i = s.nUpdate + (i + 1) from by omega]
        exact this)
      (by
        simp only
        rw [show s.nUpdate + 1 + K = s.nUpdate + K + 1 from by omega]
        exact hfail)
      (by
        intro j hj
        exact hget j hj)
    have hmain : persistPartition env p s
        = (some e, { s with nUpdate := s.nUpdate + 1 + K + 1, nGet := s.nGet + K + 1 },
           [.updateAttempt p] ++ ev') := by
      rw [persistPartition_conflict_step env p s _ hu rfl, hrec]
    refine ⟨_, _, hmain, ?_, rfl⟩
    show s.nUpdate + 1 + K + 1 = s.nUpdate + K + 2
    omega
  · -- (5) non-conflict Get failure inside the retry loop
    intro env p s cm e K hK hne hconf hget hfail
    have hu : env.update s.nUpdate = some (.conflict (cm 0)) := by
      have := hconf 0 (by omega)
      simpa using this
    obtain ⟨ev', hrec⟩ := retryOnConflict_shortcircuit_get env p e hne K
      (fun i => cm (i + 1)) defaultRetrySteps (.conflict (cm 0))
      { s with nUpdate := s.nUpdate + 1 } hK
      (by
        intro i hi
        have := hconf (i + 1) (by omega)
        simp only
        rw [show s.nUpdate + 1 + i = s.nUpdate + (i + 1) from by omega]
        exact this)
      (by
        intro j hj
        exact hget j hj)
      (by simpa using hfail)
    have hmain : persistPartition env p s
        = (some e, { s with nUpdate := s.nUpdate + 1 + K, nGet := s.nGet + K + 1 },
           [.updateAttempt p] ++ ev') := by
      rw [persistPartition_conflict_step env p s _ hu rfl, hrec]
    refine ⟨_, _, hmain, ?_, rfl⟩
    show s.nUpdate + 1 + K = s.nUpdate + K + 1
    omega

/-- Witness for C3: all five behaviours at concrete environments —
two conflicts then success persists cutoff 2; constant conflict exhausts
the budget and surfaces the conflict; a denied first Update returns at
once; a denied retried Update and a failing retried Get each
short-circuit. -/
theorem C3_conflict_retry_witness :
    (∃ s' ev, persistPartition envTwoConflicts 2 initialState = (none, s', ev) ∧
      s'.persisted = some 2 ∧ s'.nUpdate = initialState.nUpdate + 2 + 1) ∧
    (∃ s' ev, persistPartition envAlwaysConflict 2 initialState
        = (some (.conflict "object has been modified"), s', ev) ∧
      s'.persisted = initialState.persisted ∧
      ((StoreErr.conflict "object has been modified").isConflict = true)) ∧
    (persistPartition envUpdateDenied 2 initialState
      = (some (.status "forbidden"), { initialState with nUpdate := initialState.nUpdate + 1 },
         [.updateAttempt 2])) ∧
    (∃ s' ev, persistPartition envRetryDenied 2 initialState
        = (some (.status "forbidden"), s', ev) ∧
      s'.nUpdate = initialState.nUpdate + 0 + 2 ∧ s'.nGet = initialState.nGet + 0 + 1) ∧
    (∃ s' ev, persistPartition envRetryGetFails 2 initialState
        = (some (.other "connection refused"), s', ev) ∧
      s'.nUpdate = initialState.nUpdate + 0 + 1 ∧ s'.nGet = initialState.nGet + 0 + 1) := by
  refine ⟨?_, ?_, ?_, ?_, ?_⟩
  · refine C3_conflict_retry.1 envTwoConflicts 2 initialState (fun _ => "object has been modified")
      2 (by decide) ?_ rfl (fun j hj => rfl)
    intro i hi
    match i, hi with
    | 0, _ => rfl
    | 1, _ => rfl
  · exact C3_conflict_retry.2.1 envAlwaysConflict 2 initialState
      (fun _ => "object has been modified") (fun i _ => rfl) (fun j _ => rfl)
  · exact C3_conflict_retry.2.2.1 envUpdateDenied 2 initialState (.status "forbidden") rfl rfl
  · refine C3_conflict_retry.2.2.2.1 envRetryDenied 2 initialState
      (fun _ => "object has been modified") (.status "forbidden") 0 (by decide) rfl ?_ rfl
      (fun j hj => rfl)
    intro i hi
    match i, hi with
    | 0, _ => rfl
  · refine C3_conflict_retry.2.2.2.2 envRetryGetFails 2 initialState
      (fun _ => "object has been modified") (.other "connection refused") 0 (by decide) rfl ?_
      (fun j hj => absurd hj (by omega)) rfl
    intro i hi
    match i, hi with
    | 0, _ => rfl

/- ### C4: the verification poller -/

/-- The backoff growth step never exceeds `MaxInterval`. -/
theorem incrementCurrentInterval_le (maxI cur : Nat) :
    incrementCurrentInterval maxI cur ≤ maxI := by
  unfold incrementCurrentInterval
  split
  · exact le_refl _
  · omega

/-- If the predicate never succeeds and every sleep lasts at least one
nanosecond, the backoff loop halts within `MaxElapsedTime + 2` iterations,
returning the predicate's last failure, and every sleep's current interval
stays within `MaxInterval`. -/
theorem retryBackoff_never_succeeds (op : Nat → Option String) (mf : Nat → String)
    (jitter : Nat → Nat → Nat) (maxI maxT : Nat)
    (hop : ∀ k, op k = some (mf k)) (hjit : ∀ k c, 1 ≤ jitter k c) (hT : maxT ≠ 0) :
    ∀ (fuel k elapsed cur : Nat) (sleeps : List Nat),
      1 ≤ fuel → maxT + 2 ≤ fuel + elapsed → cur ≤ maxI → (∀ x ∈ sleeps, x ≤ maxI) →
      ∃ m sleeps', retryBackoff op jitter maxI maxT fuel k elapsed cur sleeps
          = some (some (mf m), sleeps') ∧ ∀ x ∈ sleeps', x ≤ maxI := by
  intro fuel
  induction fuel with
  | zero =>
    intro k elapsed cur sleeps h1
    omega
  | succ f ih =>
    intro k elapsed cur sleeps h1 h2 hcur hsl
    by_cases he : maxT < elapsed
    · have hrw : retryBackoff op jitter maxI maxT (f + 1) k elapsed cur sleeps
          = some (some (mf k), sleeps) := by
        simp [retryBackoff, hop k, hT, he]
      exact ⟨k, sleeps, hrw, hsl⟩
    · have hrw : retryBackoff op jitter maxI maxT (f + 1) k elapsed cur sleeps
          = retryBackoff op jitter maxI maxT f (k + 1) (elapsed + jitter k cur)
              (incrementCurrentInterval maxI cur) (sleeps ++ [cur]) := by
        simp [retryBackoff, hop k, he]
      rw [hrw]
      refine ih (k + 1) (elapsed + jitter k cur) (incrementCurrentInterval maxI cur)
        (sleeps ++ [cur]) (by omega) ?_ (incrementCurrentInterval_le maxI cur) ?_
      · have := hjit k cur
        omega
      · intro x hx
        rcases List.mem_append.mp hx with h | h
        · exact hsl x h
        · have hx2 : x = cur := by simpa using h
          rw [hx2]
          exact hcur

/-- C4: for a per-pod verification predicate that never succeeds
(`op k` fails at every call `k`), the verification poller terminates —
within `podUpdateTimeout + 2` iterations, because every randomized sleep
lasts at least one nanosecond, the elapsed time exceeds the configured
per-pod update timeout and the loop stops — returning the last predicate
failure as its error; and every retry is separated by the current
exponential-backoff interval, which (given a maximum polling interval of
at least the fixed 500ms initial interval) never exceeds the configured
maximum polling interval. -/
theorem C4_poller_timeout (op : Nat → Option String) (mf : Nat → String)
    (jitter : Nat → Nat → Nat) (podUpdateTimeout podMaxPollingInterval fuel : Nat)
    (hop : ∀ k, op k = some (mf k))
    (hjit : ∀ k c, 1 ≤ jitter k c)
    (hT : podUpdateTimeout ≠ 0)
    (hinit : initialIntervalDefault ≤ podMaxPollingInterval)
    (hfuel : podUpdateTimeout + 2 ≤ fuel) :
    ∃ m sleeps,
      waitUntilPerPodVerificationFuncVerifies op jitter podUpdateTimeout
          podMaxPollingInterval fuel
        = some (some (mf m), sleeps) ∧
      ∀ x ∈ sleeps, x ≤ podMaxPollingInterval := by
  unfold waitUntilPerPodVerificationFuncVerifies
  exact retryBackoff_never_succeeds op mf jitter podMaxPollingInterval podUpdateTimeout
    hop hjit hT fuel 0 0 initialIntervalDefault [] (by omega) (by omega) hinit (by simp)

/-- Witness for C4: a 2s timeout, 600ms maximum polling interval and an
always-failing predicate. -/
theorem C4_poller_timeout_witness :
    ∃ sleeps,
      waitUntilPerPodVerificationFuncVerifies (fun _ => some "pod not updated")
          (fun _ _ => 600000000) 2000000000 600000000 2000000002
        = some (some "pod not updated", sleeps) ∧
      ∀ x ∈ sleeps, x ≤ 600000000 := by
  obtain ⟨m, sleeps, h1, h2⟩ := C4_poller_timeout (fun _ => some "pod not updated")
    (fun _ => "pod not updated") (fun _ _ => 600000000) 2000000000 600000000 2000000002
    (fun _ => rfl) (fun _ _ => by norm_num) (by decide) (by decide) (by decide)
  exact ⟨sleeps, h1, h2⟩

end CockroachUpdate
